import Mathlib

/-!
Shallow embedding of the lunar-trader-hub data model: the tables created by
the migration `20250820143824_...sql`, the row-level security (RLS) policies
declared there, the `handle_new_user` registration trigger, and the thin
client operations from `Dashboard.tsx`, `Admin.tsx` and the MT5 account form
in `Navigation.tsx`.

Tables are lists of rows; the caller's identity (`auth.uid()`) is a
parameter of every operation.  Standard PostgreSQL RLS semantics are used:
rows failing a SELECT/UPDATE `USING` predicate are silently filtered, while
an INSERT whose row fails every applicable `WITH CHECK` predicate raises an
authorization error.  `DECIMAL(10,2)` money amounts are modelled as `Int`
(exact arithmetic); nullable columns are `Option`-valued.
-/

namespace LunarTrader

abbrev UserId := String

/-- The `app_role` enum from the migration: `('admin', 'user')`. -/
inductive AppRole
  | admin
  | user
deriving DecidableEq

/-- A row of `public.user_roles` (the surrogate `id` column is irrelevant
to every property and omitted; uniqueness is over `(user_id, role)`). -/
structure UserRole where
  user_id : UserId
  role : AppRole
deriving DecidableEq

/-- A row of `public.profiles`. -/
structure Profile where
  user_id : UserId
  full_name : String
  telegram_handle : String
deriving DecidableEq

/-- A row of `public.mt5_accounts`. -/
structure MT5Account where
  id : String
  user_id : UserId
  account_id : String
  password : String
  server : String
  initial_deposit : Option Int
  current_balance : Option Int
  profit_target_reached : Bool
  commission_paid : Bool
deriving DecidableEq

/-- A row of `public.admin_settings`. -/
structure AdminSettings where
  id : String
  fbs_partner_link : Option String
  usdt_wallet_address : Option String
  telegram_bot_username : Option String
deriving DecidableEq

/-- The registration metadata read by `handle_new_user` via
`NEW.raw_user_meta_data ->> 'full_name' / 'telegram_handle'`. -/
structure RawUserMetaData where
  full_name : Option String
  telegram_handle : Option String
deriving DecidableEq

/-- A row of `auth.users` (only the parts the trigger reads). -/
structure AuthUser where
  id : UserId
  raw_user_meta_data : RawUserMetaData
deriving DecidableEq

/-- The backend store: one list per table. -/
structure DB where
  users : List AuthUser
  profiles : List Profile
  user_roles : List UserRole
  mt5_accounts : List MT5Account
  admin_settings : List AdminSettings
deriving DecidableEq

/-- The security-definer membership test `public.has_role(_user_id, _role)`:
`EXISTS (SELECT 1 FROM user_roles WHERE user_id = _user_id AND role = _role)`. -/
def has_role (db : DB) (uid : UserId) (r : AppRole) : Bool :=
  db.user_roles.any (fun ur => decide (ur.user_id = uid) && decide (ur.role = r))

/-- SELECT on `mt5_accounts`.  The only policy applicable to SELECT is
"Admins can manage all MT5 accounts" (`FOR ALL USING has_role(auth.uid(),
'admin')`); RLS filters out every row whose `USING` check fails. -/
def selectMT5 (db : DB) (uid : UserId) : List MT5Account :=
  db.mt5_accounts.filter (fun _ => has_role db uid AppRole.admin)

/-- An operation denied by a `WITH CHECK` policy raises an authorization
error (PostgreSQL error 42501). -/
inductive DbError
  | permissionDenied
deriving DecidableEq

/-- INSERT on `mt5_accounts`.  Permissive policies: "Admins can manage all
MT5 accounts" (`FOR ALL`, its `USING` doubles as the check) or "Users can
insert their own MT5 account" (`WITH CHECK auth.uid() = user_id`).  A row
passing neither check is rejected with an error. -/
def insertMT5 (db : DB) (uid : UserId) (row : MT5Account) : Except DbError DB :=
  if (has_role db uid AppRole.admin || decide (row.user_id = uid)) = true then
    Except.ok { db with mt5_accounts := db.mt5_accounts ++ [row] }
  else
    Except.error DbError.permissionDenied

/-- A partial update payload, as built by `updateMT5Account` in `Admin.tsx`
(`Partial<MT5Account>` restricted to the fields the admin screen sends). -/
structure MT5Update where
  current_balance : Option Int
  profit_target_reached : Option Bool
  commission_paid : Option Bool
deriving DecidableEq

/-- Apply an update payload to one row (fields absent from the payload are
left unchanged). -/
def applyUpdate (u : MT5Update) (a : MT5Account) : MT5Account :=
  { a with
    current_balance :=
      match u.current_balance with
      | some v => some v
      | none => a.current_balance
    profit_target_reached := u.profit_target_reached.getD a.profit_target_reached
    commission_paid := u.commission_paid.getD a.commission_paid }

/-- UPDATE on `mt5_accounts` as issued by `updateMT5Account` in `Admin.tsx`
(`update(updates).eq('id', accountId)`).  Only rows matching the `id` filter
AND visible under the sole applicable `USING` policy (admin) are updated;
rows failing `USING` are silently skipped, per RLS semantics. -/
def updateMT5 (db : DB) (uid : UserId) (accId : String) (u : MT5Update) : DB :=
  { db with
    mt5_accounts := db.mt5_accounts.map (fun a =>
      if (decide (a.id = accId) && has_role db uid AppRole.admin) = true then
        applyUpdate u a
      else a) }

/-- A sequence of update operations `(caller, account id, payload)` applied
in order. -/
def applyOps (db : DB) (ops : List (UserId × String × MT5Update)) : DB :=
  ops.foldl (fun d op => updateMT5 d op.1 op.2.1 op.2.2) db

/-- SELECT on `admin_settings`: a row is visible if it passes at least one
permissive policy, "Admins can manage settings" or "Everyone can view admin
settings" (`USING (true)`).  The operation returns the visible rows and the
(unchanged) store, making the absence of side effects explicit. -/
def adminSettingsSelectAllowed (db : DB) (uid : UserId) (_row : AdminSettings) : Bool :=
  has_role db uid AppRole.admin || true

def selectAdminSettingsOp (db : DB) (uid : UserId) : List AdminSettings × DB :=
  (db.admin_settings.filter (adminSettingsSelectAllowed db uid), db)

/-- The `handle_new_user` trigger body: insert a profile with the two
metadata fields defaulted to `''` by `COALESCE`, then insert the default
`'user'` role. -/
def handle_new_user (db : DB) (newUser : AuthUser) : DB :=
  { db with
    profiles := db.profiles ++
      [⟨newUser.id, newUser.raw_user_meta_data.full_name.getD "",
        newUser.raw_user_meta_data.telegram_handle.getD ""⟩]
    user_roles := db.user_roles ++ [⟨newUser.id, AppRole.user⟩] }

/-- Registration: the `auth.users` insert together with the
`on_auth_user_created` trigger (`AFTER INSERT ... FOR EACH ROW`), as one
atomic unit — the trigger runs in the same transaction as the insert. -/
def registerUser (db : DB) (newUser : AuthUser) : DB :=
  handle_new_user { db with users := db.users ++ [newUser] } newUser

/-- The insert payload built by `handleSubmit` in the MT5 account form:
`user_id`, the three text fields, `initial_deposit`, and `current_balance`
set to the initial deposit. -/
structure MT5InsertPayload where
  user_id : UserId
  account_id : String
  password : String
  server : String
  initial_deposit : Int
  current_balance : Int
deriving DecidableEq

/-- Client-side validation and payload construction from `handleSubmit` in
`Navigation.tsx`: every field must be non-empty, the deposit must parse
(`none` models an unparseable/missing value) and be strictly positive;
`current_balance` starts equal to the initial deposit. -/
def handleSubmit (uid : UserId) (aid pw srv : String) (dep : Option Int) :
    Option MT5InsertPayload :=
  if aid = "" ∨ pw = "" ∨ srv = "" then none
  else
    match dep with
    | none => none
    | some d => if d ≤ 0 then none else some ⟨uid, aid, pw, srv, d, d⟩

/-- The stored row resulting from the form's insert: the payload columns
plus the schema defaults `profit_target_reached DEFAULT FALSE` and
`commission_paid DEFAULT FALSE` (the client omits both flags). -/
def newRowFromPayload (rowId : String) (p : MT5InsertPayload) : MT5Account :=
  { id := rowId
    user_id := p.user_id
    account_id := p.account_id
    password := p.password
    server := p.server
    initial_deposit := some p.initial_deposit
    current_balance := some p.current_balance
    profit_target_reached := false
    commission_paid := false }

/-- The Dashboard badge (lines 227-233 of `Dashboard.tsx`): rendered only
when `profit_target_reached`, reading "Commission Paid" when
`commission_paid` and "Commission Due" otherwise. -/
def dashboardBadge (a : MT5Account) : Option String :=
  if a.profit_target_reached then
    some (if a.commission_paid then "Commission Paid" else "Commission Due")
  else none

/-- The intended business rule of spec section 3: `commission_paid` may only
be true when `profit_target_reached` is. -/
def commissionInvariant (a : MT5Account) : Prop :=
  a.commission_paid = true → a.profit_target_reached = true

instance (a : MT5Account) : Decidable (commissionInvariant a) := by
  unfold commissionInvariant
  infer_instance

/-- `totalProfit` from `Dashboard.tsx` lines 122-125: a reduce that adds
`Math.max(0, (current_balance || 0) - (initial_deposit || 0))` per account. -/
def totalProfit (accounts : List MT5Account) : Int :=
  accounts.foldl
    (fun sum a => sum + max 0 (a.current_balance.getD 0 - a.initial_deposit.getD 0)) 0

/-- The claim's wording of the same quantity: the sum over accounts of
`max(0, current_balance - initial_deposit)` with missing values read as 0. -/
def totalProfitSpec (accounts : List MT5Account) : Int :=
  (accounts.map (fun a => max 0 (a.current_balance.getD 0 - a.initial_deposit.getD 0))).sum

/-! Concrete store states used by witnesses and counterexamples. -/

/-- An account owned by `alice`, milestone flags at their defaults. -/
def accAlice : MT5Account :=
  ⟨"a1", "alice", "123", "pw", "Demo", some 1000, some 1000, false, false⟩

/-- The same account after the target was marked reached. -/
def accTarget : MT5Account :=
  ⟨"a1", "alice", "123", "pw", "Demo", some 1000, some 2000, true, false⟩

/-- A losing account: balance below deposit. -/
def accLoser : MT5Account :=
  ⟨"a2", "alice", "124", "pw", "Demo", some 1000, some 500, false, false⟩

/-- A store with one ordinary user `alice` and her account; `bob` holds no
role at all (in particular not `admin`). -/
def dbBase : DB :=
  ⟨[], [], [⟨"alice", AppRole.user⟩], [accAlice], []⟩

/-- A store in which `root` is an administrator. -/
def dbAdmin : DB :=
  ⟨[], [], [⟨"root", AppRole.admin⟩, ⟨"alice", AppRole.user⟩], [accAlice], []⟩

/-- A store with an administrator `adm` and an account whose profit target
has been reached. -/
def dbLatch : DB :=
  ⟨[], [], [⟨"adm", AppRole.admin⟩], [accTarget], []⟩

/-- A store with an administrator `adm` and an account whose profit target
has NOT been reached. -/
def dbFlat : DB :=
  ⟨[], [], [⟨"adm", AppRole.admin⟩], [accAlice], []⟩

/-- The empty store. -/
def dbEmpty : DB :=
  ⟨[], [], [], [], []⟩

/-- The payload the admin checkbox sends when unchecking
"Profit Target Reached" (`{ profit_target_reached: false }`). -/
def updResetTarget : MT5Update :=
  ⟨none, some false, none⟩

/-- The payload the admin checkbox sends when checking
"Commission Paid" (`{ commission_paid: true }`). -/
def updSetPaid : MT5Update :=
  ⟨none, none, some true⟩

/-- Registration input for the scenario user `Jane`. -/
def janeUser : AuthUser :=
  ⟨"jane-id", ⟨some "Jane", some "@jane"⟩⟩

/-- The payload produced by a valid submission of account `123`. -/
def payloadA : MT5InsertPayload :=
  ⟨"alice", "123", "pw", "Demo", 1000, 1000⟩

/-- A row violating the commission business rule (`commission_paid` true,
`profit_target_reached` false), owned by `eve`, as a direct API client
could hand it to the insert endpoint — bypassing the form's payload. -/
def badFlagRow : MT5Account :=
  ⟨"r9", "eve", "999", "pw", "Demo", some 100, some 100, false, true⟩

/-! Helper lemmas shared by several claims. -/

/-- An update issued by a non-administrator caller leaves the store
unchanged: the only `USING` policy applicable to UPDATE on `mt5_accounts`
is the admin one, so RLS lets the update touch zero rows. -/
theorem updateMT5_nonadmin (db : DB) (uid : UserId) (accId : String)
    (u : MT5Update) (h : has_role db uid AppRole.admin = false) :
    updateMT5 db uid accId u = db := by
  simp [updateMT5, h]

/-- A sequence of updates all issued by non-administrators leaves the store
unchanged. -/
theorem applyOps_nonadmin (db : DB) (ops : List (UserId × String × MT5Update))
    (h : ∀ op ∈ ops, has_role db op.1 AppRole.admin = false) :
    applyOps db ops = db := by
  induction ops with
  | nil => rfl
  | cons op rest ih =>
    show applyOps (updateMT5 db op.1 op.2.1 op.2.2) rest = db
    rw [updateMT5_nonadmin db op.1 op.2.1 op.2.2 (h op (List.mem_cons_self _ _))]
    exact ih (fun o ho => h o (List.mem_cons_of_mem _ ho))

/-- Unfolding a left fold of additions into a mapped sum. -/
theorem foldl_add_map_sum (f : MT5Account → Int) (l : List MT5Account) :
    ∀ init : Int, l.foldl (fun s a => s + f a) init = init + (l.map f).sum := by
  induction l with
  | nil => intro init; simp
  | cons a t ih =>
    intro init
    simp only [List.foldl_cons, List.map_cons, List.sum_cons, ih]
    ring

/-! Claim theorems. -/

/-- C1: under the policy layer, a non-administrator select of Trading
Accounts returns only rows owned by the caller (in fact, with the policies
as written, it returns no rows at all, so no other identity's row is ever
returned), while an administrator select returns every row. -/
theorem mt5_select_owner_scoped (db : DB) (uid : UserId) :
    (has_role db uid AppRole.admin = false →
      ∀ row ∈ selectMT5 db uid, row.user_id = uid)
    ∧ (has_role db uid AppRole.admin = true →
      selectMT5 db uid = db.mt5_accounts) := by
  constructor
  · intro h row hrow
    simp [selectMT5, h, List.mem_filter] at hrow
  · intro h
    simp [selectMT5, h]

/-- Witness for C1: in a store where `root` holds the admin role, the
select returns the whole table. -/
theorem mt5_select_owner_scoped_witness :
    has_role dbAdmin "root" AppRole.admin = true
    ∧ selectMT5 dbAdmin "root" = dbAdmin.mt5_accounts :=
  ⟨by decide, (mt5_select_owner_scoped dbAdmin "root").2 (by decide)⟩

/-- C2: an update of a Trading Account issued through the admin screen's
update path by a caller without the admin role leaves the store completely
unchanged — in particular `current_balance`, `profit_target_reached` and
`commission_paid` keep their values, so only an administrator can change
them. -/
theorem mt5_update_nonadmin_rejected (db : DB) (uid : UserId) (accId : String)
    (u : MT5Update) (h : has_role db uid AppRole.admin = false) :
    updateMT5 db uid accId u = db :=
  updateMT5_nonadmin db uid accId u h

/-- Witness for C2: `bob`, who holds no role, cannot mark alice's account
commission as paid. -/
theorem mt5_update_nonadmin_rejected_witness :
    updateMT5 dbBase "bob" "a1" updSetPaid = dbBase :=
  mt5_update_nonadmin_rejected dbBase "bob" "a1" updSetPaid (by decide)

/-- C3 counterexample: a select denied by the policy layer surfaces as an
empty result set, not as an authorization error — the store holds a row,
the caller is not an administrator, and the select returns `[]` (its type
has no error channel), indistinguishable from no data. -/
theorem denied_select_empty_not_error :
    dbBase.mt5_accounts ≠ []
    ∧ has_role dbBase "bob" AppRole.admin = false
    ∧ selectMT5 dbBase "bob" = [] := by decide

/-- C3 (amended): a denied insert does surface as an authorization error,
but a denied read does not — for a non-administrator caller the select
filters every row and returns the empty list. -/
theorem denied_write_errors_denied_read_filters (db : DB) (uid : UserId)
    (row : MT5Account) (h1 : has_role db uid AppRole.admin = false)
    (h2 : ¬ row.user_id = uid) :
    insertMT5 db uid row = Except.error DbError.permissionDenied
    ∧ selectMT5 db uid = [] := by
  constructor
  · simp [insertMT5, h1, h2]
  · simp [selectMT5, h1]

/-- Witness for amended C3: `bob` inserting alice's row gets an error,
while his read of the table comes back empty. -/
theorem denied_write_errors_denied_read_filters_witness :
    insertMT5 dbBase "bob" accAlice = Except.error DbError.permissionDenied
    ∧ selectMT5 dbBase "bob" = [] :=
  denied_write_errors_denied_read_filters dbBase "bob" accAlice (by decide) (by decide)

/-- C4: registering a fresh identity stores the identity and — in the same
atomic step — exactly one Profile row, whose name and handle come from the
registration metadata with missing fields defaulted to the empty string,
and exactly one Role Assignment row with role `user`. -/
theorem registration_creates_profile_and_role (db : DB) (u : AuthUser)
    (hp : ∀ p ∈ db.profiles, p.user_id ≠ u.id)
    (hr : ∀ r ∈ db.user_roles, r.user_id ≠ u.id) :
    (registerUser db u).users = db.users ++ [u]
    ∧ (registerUser db u).profiles.filter (fun p => decide (p.user_id = u.id))
      = [⟨u.id, u.raw_user_meta_data.full_name.getD "",
          u.raw_user_meta_data.telegram_handle.getD ""⟩]
    ∧ (registerUser db u).user_roles.filter (fun r => decide (r.user_id = u.id))
      = [⟨u.id, AppRole.user⟩] := by
  have h1 : db.profiles.filter (fun p => decide (p.user_id = u.id)) = [] := by
    rw [List.filter_eq_nil_iff]
    intro p hmem
    simpa using hp p hmem
  have h2 : db.user_roles.filter (fun r => decide (r.user_id = u.id)) = [] := by
    rw [List.filter_eq_nil_iff]
    intro r hmem
    simpa using hr r hmem
  refine ⟨rfl, ?_, ?_⟩
  · simp [registerUser, handle_new_user, List.filter_append, h1]
  · simp [registerUser, handle_new_user, List.filter_append, h2]

/-- Witness for C4: registering Jane against the empty store yields her
profile row and her default `user` role, each exactly once. -/
theorem registration_creates_profile_and_role_witness :
    (registerUser dbEmpty janeUser).users = dbEmpty.users ++ [janeUser]
    ∧ (registerUser dbEmpty janeUser).profiles.filter
        (fun p => decide (p.user_id = janeUser.id))
      = [⟨janeUser.id, janeUser.raw_user_meta_data.full_name.getD "",
          janeUser.raw_user_meta_data.telegram_handle.getD ""⟩]
    ∧ (registerUser dbEmpty janeUser).user_roles.filter
        (fun r => decide (r.user_id = janeUser.id))
      = [⟨janeUser.id, AppRole.user⟩] :=
  registration_creates_profile_and_role dbEmpty janeUser (by decide) (by decide)

/-- C5: for a non-administrator caller, an insert into Trading Accounts
succeeds (appending the row) exactly when the row's owner field equals the
caller's identity; otherwise it is rejected. -/
theorem mt5_insert_owner_check (db : DB) (uid : UserId) (row : MT5Account)
    (h : has_role db uid AppRole.admin = false) :
    insertMT5 db uid row
      = Except.ok { db with mt5_accounts := db.mt5_accounts ++ [row] }
    ↔ row.user_id = uid := by
  by_cases he : row.user_id = uid
  · simp [insertMT5, h, he]
  · simp [insertMT5, h, he]

/-- Witness for C5: `alice`, a plain user, successfully inserts a row she
owns. -/
theorem mt5_insert_owner_check_witness :
    insertMT5 dbBase "alice" accAlice
      = Except.ok { dbBase with mt5_accounts := dbBase.mt5_accounts ++ [accAlice] } :=
  (mt5_insert_owner_check dbBase "alice" accAlice (by decide)).mpr (by decide)

/-- C6: a validated submission with deposit `d` produces a row whose
`current_balance` equals `d` and whose milestone flags are both false; the
Dashboard shows the "Commission Due" badge exactly when
`profit_target_reached` is true and `commission_paid` is false, and shows
"Commission Paid" once both are true. -/
theorem mt5_submit_defaults_and_badge (uid aid pw srv : String) (d : Int)
    (p : MT5InsertPayload) (rid : String)
    (h : handleSubmit uid aid pw srv (some d) = some p) :
    (newRowFromPayload rid p).current_balance = some d
    ∧ (newRowFromPayload rid p).initial_deposit = some d
    ∧ (newRowFromPayload rid p).profit_target_reached = false
    ∧ (newRowFromPayload rid p).commission_paid = false
    ∧ (∀ a : MT5Account,
        dashboardBadge a = some "Commission Due"
        ↔ (a.profit_target_reached = true ∧ a.commission_paid = false))
    ∧ (∀ a : MT5Account, a.profit_target_reached = true →
        a.commission_paid = true → dashboardBadge a = some "Commission Paid") := by
  have hp : p = ⟨uid, aid, pw, srv, d, d⟩ := by
    unfold handleSubmit at h
    by_cases h1 : aid = "" ∨ pw = "" ∨ srv = ""
    · rw [if_pos h1] at h
      exact absurd h (by simp)
    · rw [if_neg h1] at h
      by_cases h2 : d ≤ 0
      · simp [h2] at h
      · simp [h2] at h
        exact h.symm
  subst hp
  refine ⟨rfl, rfl, rfl, rfl, ?_, ?_⟩
  · intro a
    cases hpt : a.profit_target_reached <;> cases hcp : a.commission_paid <;>
      simp [dashboardBadge, hpt, hcp]
  · intro a h1 h2
    simp [dashboardBadge, h1, h2]

/-- Witness for C6: submitting account `123` with deposit 1000 yields the
expected payload and a stored row with balance 1000 and both flags false. -/
theorem mt5_submit_defaults_and_badge_witness :
    (newRowFromPayload "r1" payloadA).current_balance = some 1000
    ∧ (newRowFromPayload "r1" payloadA).initial_deposit = some 1000
    ∧ (newRowFromPayload "r1" payloadA).profit_target_reached = false
    ∧ (newRowFromPayload "r1" payloadA).commission_paid = false :=
  ⟨(mt5_submit_defaults_and_badge "alice" "123" "pw" "Demo" 1000 payloadA "r1"
      (by decide)).1,
   (mt5_submit_defaults_and_badge "alice" "123" "pw" "Demo" 1000 payloadA "r1"
      (by decide)).2.1,
   (mt5_submit_defaults_and_badge "alice" "123" "pw" "Demo" 1000 payloadA "r1"
      (by decide)).2.2.1,
   (mt5_submit_defaults_and_badge "alice" "123" "pw" "Demo" 1000 payloadA "r1"
      (by decide)).2.2.2.1⟩

/-- C7 counterexample: the admin screen's checkbox path does reset
`profit_target_reached` — starting from a store whose only account has the
flag set, the administrator's update with payload
`{ profit_target_reached: false }` leaves the account with the flag
cleared, so the flag is not a one-way latch. -/
theorem profit_target_reset_by_admin :
    accTarget.profit_target_reached = true
    ∧ dbLatch.mt5_accounts = [accTarget]
    ∧ (updateMT5 dbLatch "adm" "a1" updResetTarget).mt5_accounts
      = [{ accTarget with profit_target_reached := false }] := by decide

/-- C7 (amended): `profit_target_reached` is a latch only against
non-administrator callers — under any sequence of updates issued by callers
without the admin role, an account whose flag is set keeps it set; the
administrator checkbox path, by contrast, can clear it. -/
theorem profit_target_latch_under_nonadmin (db : DB)
    (ops : List (UserId × String × MT5Update)) (a : MT5Account)
    (h : ∀ op ∈ ops, has_role db op.1 AppRole.admin = false)
    (ha : a ∈ db.mt5_accounts) (ht : a.profit_target_reached = true) :
    ∃ b ∈ (applyOps db ops).mt5_accounts,
      b.id = a.id ∧ b.profit_target_reached = true := by
  rw [applyOps_nonadmin db ops h]
  exact ⟨a, ha, rfl, ht⟩

/-- Witness for amended C7: `bob`, holding no role, attempts the reset and
the flag survives. -/
theorem profit_target_latch_under_nonadmin_witness :
    ∃ b ∈ (applyOps dbLatch [("bob", "a1", updResetTarget)]).mt5_accounts,
      b.id = accTarget.id ∧ b.profit_target_reached = true :=
  profit_target_latch_under_nonadmin dbLatch [("bob", "a1", updResetTarget)]
    accTarget (by decide) (by decide) (by decide)

/-- C8 counterexample: the invariant "commission_paid implies
profit_target_reached" is not preserved — from a store whose only account
has both flags false, the administrator's `{ commission_paid: true }`
update yields a state with `commission_paid` true and
`profit_target_reached` still false. -/
theorem commission_paid_without_target_by_admin :
    accAlice.profit_target_reached = false
    ∧ (updateMT5 dbFlat "adm" "a1" updSetPaid).mt5_accounts
      = [{ accAlice with commission_paid := true }]
    ∧ ({ accAlice with commission_paid := true } : MT5Account).commission_paid = true
    ∧ ({ accAlice with commission_paid := true } : MT5Account).profit_target_reached
      = false := by decide

/-- C8 (amended): the invariant is not mechanically enforced.  What does
hold: every account created through the client submission form satisfies it
(both flags start false), and every sequence of non-administrator update
operations preserves it.  What does not: administrator updates may violate
it (see the counterexample), and the policy layer accepts even a
non-administrator insert of an owner-matching row whose flags already
violate it — the insert check tests only ownership, never the flags. -/
theorem commission_invariant_not_enforced (db : DB)
    (ops : List (UserId × String × MT5Update)) (rid : String)
    (p : MT5InsertPayload)
    (h : ∀ op ∈ ops, has_role db op.1 AppRole.admin = false)
    (hinv : ∀ a ∈ db.mt5_accounts, commissionInvariant a) :
    commissionInvariant (newRowFromPayload rid p)
    ∧ (∀ a ∈ (applyOps db ops).mt5_accounts, commissionInvariant a)
    ∧ (∀ (uid : UserId) (row : MT5Account), row.user_id = uid →
        insertMT5 db uid row
          = Except.ok { db with mt5_accounts := db.mt5_accounts ++ [row] }) := by
  refine ⟨?_, ?_, ?_⟩
  · intro hcp
    simp [newRowFromPayload] at hcp
  · rw [applyOps_nonadmin db ops h]
    exact hinv
  · intro uid row hrow
    simp [insertMT5, hrow]

/-- Witness for amended C8: a fresh submission satisfies the invariant,
`bob`'s attempted update preserves it across the store, and the policy
layer accepts `eve`'s insert of a row that violates it. -/
theorem commission_invariant_not_enforced_witness :
    commissionInvariant (newRowFromPayload "r1" payloadA)
    ∧ (∀ a ∈ (applyOps dbBase [("bob", "a1", updSetPaid)]).mt5_accounts,
        commissionInvariant a)
    ∧ insertMT5 dbBase "eve" badFlagRow
      = Except.ok { dbBase with mt5_accounts := dbBase.mt5_accounts ++ [badFlagRow] }
    ∧ ¬ commissionInvariant badFlagRow :=
  ⟨(commission_invariant_not_enforced dbBase [("bob", "a1", updSetPaid)] "r1"
      payloadA (by decide) (by decide)).1,
   (commission_invariant_not_enforced dbBase [("bob", "a1", updSetPaid)] "r1"
      payloadA (by decide) (by decide)).2.1,
   (commission_invariant_not_enforced dbBase [("bob", "a1", updSetPaid)] "r1"
      payloadA (by decide) (by decide)).2.2 "eve" badFlagRow (by decide),
   by decide⟩

/-- C9: reading Platform Settings is side-effect-free and permitted for
every caller — the read returns the full settings table, leaves the store
untouched, and a second read from the resulting state returns identical
values. -/
theorem admin_settings_read_idempotent (db : DB) (uid : UserId) :
    (selectAdminSettingsOp db uid).1 = db.admin_settings
    ∧ (selectAdminSettingsOp db uid).2 = db
    ∧ (selectAdminSettingsOp (selectAdminSettingsOp db uid).2 uid).1
      = (selectAdminSettingsOp db uid).1 := by
  refine ⟨?_, rfl, rfl⟩
  simp [selectAdminSettingsOp, adminSettingsSelectAllowed]

/-- C10: the Dashboard's Total Profit reduce equals the sum over accounts
of `max 0 (current_balance - initial_deposit)` with missing values read as
0; it is therefore non-negative, and appending a losing account (balance at
or below deposit) leaves it unchanged. -/
theorem total_profit_clamped_sum (accs : List MT5Account) (a : MT5Account) :
    totalProfit accs = totalProfitSpec accs
    ∧ 0 ≤ totalProfit accs
    ∧ (a.current_balance.getD 0 ≤ a.initial_deposit.getD 0 →
        totalProfit (accs ++ [a]) = totalProfit accs) := by
  have key : ∀ l : List MT5Account, totalProfit l = totalProfitSpec l := by
    intro l
    simpa [totalProfit, totalProfitSpec] using
      foldl_add_map_sum
        (fun b => max 0 (b.current_balance.getD 0 - b.initial_deposit.getD 0)) l 0
  refine ⟨key accs, ?_, ?_⟩
  · rw [key accs]
    apply List.sum_nonneg
    intro x hx
    simp only [totalProfitSpec, List.mem_map] at hx
    obtain ⟨b, _, rfl⟩ := hx
    exact le_max_left 0 _
  · intro hle
    rw [key (accs ++ [a]), key accs]
    simp only [totalProfitSpec, List.map_append, List.sum_append, List.map_cons,
      List.map_nil, List.sum_cons, List.sum_nil]
    rw [max_eq_left (sub_nonpos.mpr hle)]
    ring

/-- Witness for C10: appending the losing account `a2` (balance 500 against
deposit 1000) does not change the displayed total profit. -/
theorem total_profit_clamped_sum_witness :
    accLoser.current_balance.getD 0 ≤ accLoser.initial_deposit.getD 0
    ∧ totalProfit ([accAlice] ++ [accLoser]) = totalProfit [accAlice] :=
  ⟨by decide, (total_profit_clamped_sum [accAlice] accLoser).2.2 (by decide)⟩

end LunarTrader
